import Mathlib

/-!
Verification development for the Order Execution Engine
(`vignesh1683/Order_Execution_Engine`).

The repository is a TypeScript order pipeline: Fastify routes create an
order, a BullMQ worker runs `LimitOrderService.processLimitOrder`, which
routes the order through `MockDexRouter` (two simulated venues), a
price-gated retry loop (`checkLimitWithRetry`), a simulated swap
(`executeSwap`), WebSocket broadcasts (`wsManager`), and a final
persisted status update (`orderService.updateOrderStatus`).

This file is a shallow embedding of that code.  JavaScript numbers are
modelled as rationals (`ℚ`); `Math.random()` draws are passed in
explicitly through an environment, with the range hypothesis
`0 ≤ r < 1` stated where a property needs it.  Asynchronous waits
(`sleep`, simulated network delays) are recorded as counters, not
timed.  Persistence and WebSocket delivery are modelled as pure data
(the list of `updateOrderStatus` calls, the list of emitted events).
-/

namespace OrderExec

/-- Venue identifiers, from `src/types/index.ts` (`DexType`). -/
inductive DexType
  | RAYDIUM
  | METEORA
deriving DecidableEq, Repr

/-- Order lifecycle statuses, from `src/types/index.ts` (`OrderStatus`). -/
inductive OrderStatus
  | pending
  | routing
  | limit_check
  | building
  | submitted
  | confirmed
  | failed
deriving DecidableEq, Repr

/-- A venue quote, from `src/types/index.ts` (`DexQuote`): a price and a
fee fraction (the venue tag is carried separately here). -/
structure DexQuote where
  price : ℚ
  fee : ℚ
deriving DecidableEq, Repr

/-- The Venue Router's result, from `src/types/index.ts`
(`DexRouterResult`). -/
structure DexRouterResult where
  selectedDex : DexType
  price : ℚ
  fee : ℚ
  effectivePrice : ℚ
deriving DecidableEq, Repr

/-- An order, from `src/types/index.ts` (`Order`), restricted to the
fields `processLimitOrder` reads.  `limitPrice` is modelled as present
(the API handler in `src/routes/orders.ts` rejects LIMIT orders without
one, and `processLimitOrder` dereferences it with `order.limitPrice!`). -/
structure Order where
  id : String
  tokenIn : String
  tokenOut : String
  amountIn : ℚ
  limitPrice : ℚ
deriving DecidableEq, Repr

/-- `MockDexRouter.basePrice` (`src/dex/MockDexRouter.ts`): 185.50. -/
def basePrice : ℚ := 371 / 2

/-- `MockDexRouter.getRaydiumQuote`: price `basePrice * (0.98 + r * 0.04)`
for one `Math.random()` draw `r`, fee 0.003.  The `tokenIn`/`tokenOut`/
`amount` parameters of the source are ignored by the mock (they are
underscore-prefixed), so the quote is a function of the draw alone. -/
def getRaydiumQuote (r : ℚ) : DexQuote :=
  { price := basePrice * (98 / 100 + r * (4 / 100)), fee := 3 / 1000 }

/-- `MockDexRouter.getMeteorQuote`: price `basePrice * (0.97 + r * 0.05)`
for one `Math.random()` draw `r`, fee 0.002. -/
def getMeteorQuote (r : ℚ) : DexQuote :=
  { price := basePrice * (97 / 100 + r * (5 / 100)), fee := 2 / 1000 }

/-- `MockDexRouter.routeOrder` (`src/dex/MockDexRouter.ts` lines 573–598)
as a function of the two quotes returned by the `Promise.all` fan-out:
compute each venue's effective price `price * (1 - fee)`, select
`RAYDIUM` exactly when its effective price is strictly lower, and return
the selected quote together with its effective price. -/
def routeOrder (raydiumQuote meteoraQuote : DexQuote) : DexRouterResult :=
  let raydiumEffective := raydiumQuote.price * (1 - raydiumQuote.fee)
  let meteoraEffective := meteoraQuote.price * (1 - meteoraQuote.fee)
  let selectedDex :=
    if raydiumEffective < meteoraEffective then DexType.RAYDIUM else DexType.METEORA
  let selectedQuote :=
    if selectedDex = DexType.RAYDIUM then raydiumQuote else meteoraQuote
  { selectedDex := selectedDex
    price := selectedQuote.price
    fee := selectedQuote.fee
    effectivePrice := selectedQuote.price * (1 - selectedQuote.fee) }

/-- `MockDexRouter.checkLimitCondition`: for buy orders the best price
must be at or below the limit price (`bestPrice <= limitPrice`). -/
def checkLimitCondition (bestPrice limitPrice : ℚ) : Bool :=
  bestPrice ≤ limitPrice

/-- The environment of one `processLimitOrder` run: the `Math.random()`
draws consumed by each router invocation (invocation `n` draws
`routeR n` for Raydium and Meteora), the draw behind `executeSwap`'s
executed price, and the draws behind `generateMockTxHash`. -/
structure Env where
  routeR : Nat → ℚ × ℚ
  swapU : ℚ
  txR : Nat → ℚ

/-- The result of the `n`-th router invocation of a run under
environment `env`. -/
def routeOrderAt (env : Env) (n : Nat) : DexRouterResult :=
  routeOrder (getRaydiumQuote (env.routeR n).1) (getMeteorQuote (env.routeR n).2)

/-- The arguments of one `dexRouter.routeOrder(...)` call, recorded so
that theorems can speak about what the caller passed. -/
structure RouteCall where
  tokenIn : String
  tokenOut : String
  amount : ℚ
deriving DecidableEq, Repr

/-- `LimitOrderService.maxRetries` (3). -/
def maxRetries : Nat := 3

/-- `LimitOrderService.retryDelayMs` (3000). -/
def retryDelayMs : Nat := 3000

/-- What one `checkLimitWithRetry` call observably does: its boolean
return value, how many `checkLimitCondition` evaluations it performed,
how many `sleep(retryDelayMs)` waits it incurred, the arguments of the
`routeOrder` calls it made (in order), and the `currentPrice` of the
final call frame (the last observed effective price). -/
structure GateResult where
  ok : Bool
  checks : Nat
  sleeps : Nat
  routeCalls : List RouteCall
  lastPrice : ℚ
deriving DecidableEq, Repr

/-- `LimitOrderService.checkLimitWithRetry`
(`src/services/limitOrderService.ts` lines 251–289), with an explicit
`fuel` bound on the recursion depth.  The source recursion terminates
because `attempt` increases towards `maxRetries`; callers instantiate
`fuel` with `maxRetries`, which strictly exceeds the recursion depth
(see `checkLimitGo_fuel_irrel`), so the fuel-exhaustion branch is dead.
The retry re-invokes the router with the literal arguments
`('SOL', 'USDC', 1.5)` exactly as the source does; router invocation
`attempt` of the environment supplies the fresh quotes. -/
def checkLimitGo (env : Env) (limitPrice : ℚ) :
    ℚ → Nat → Nat → GateResult
  | currentPrice, attempt, fuel =>
    if checkLimitCondition currentPrice limitPrice then
      { ok := true, checks := 1, sleeps := 0, routeCalls := [], lastPrice := currentPrice }
    else if attempt ≥ maxRetries then
      { ok := false, checks := 1, sleeps := 0, routeCalls := [], lastPrice := currentPrice }
    else
      match fuel with
      | 0 =>
        { ok := false, checks := 1, sleeps := 0, routeCalls := [], lastPrice := currentPrice }
      | fuel' + 1 =>
        let newRoute := routeOrderAt env attempt
        let tail := checkLimitGo env limitPrice newRoute.effectivePrice (attempt + 1) fuel'
        { ok := tail.ok
          checks := tail.checks + 1
          sleeps := tail.sleeps + 1
          routeCalls := { tokenIn := "SOL", tokenOut := "USDC", amount := 3 / 2 } :: tail.routeCalls
          lastPrice := tail.lastPrice }

/-- `checkLimitWithRetry(orderId, currentPrice, limitPrice)` with the
source's default `attempt = 1` (the `orderId` parameter only feeds
`console.log` and is dropped). -/
def checkLimitWithRetry (env : Env) (currentPrice limitPrice : ℚ)
    (attempt : Nat := 1) : GateResult :=
  checkLimitGo env limitPrice currentPrice attempt maxRetries

/-- Any fuel at least `maxRetries - attempt` gives the same result, so
the fuel-exhaustion branch of `checkLimitGo` is unreachable for the
actual calls. -/
theorem checkLimitGo_fuel_irrel (env : Env) (limitPrice : ℚ) :
    ∀ fuel₁ fuel₂ currentPrice attempt,
      maxRetries - attempt ≤ fuel₁ → maxRetries - attempt ≤ fuel₂ →
      checkLimitGo env limitPrice currentPrice attempt fuel₁ =
        checkLimitGo env limitPrice currentPrice attempt fuel₂ := by
  intro fuel₁
  induction fuel₁ with
  | zero =>
    intro fuel₂ currentPrice attempt h₁ h₂
    have hattempt : maxRetries ≤ attempt := by omega
    cases fuel₂ with
    | zero => rfl
    | succ fuel₂' =>
      simp only [checkLimitGo, if_pos, if_neg]
      have : attempt ≥ maxRetries := hattempt
      simp [this]
  | succ fuel₁' ih =>
    intro fuel₂ currentPrice attempt h₁ h₂
    cases fuel₂ with
    | zero =>
      have hattempt : maxRetries ≤ attempt := by omega
      have : attempt ≥ maxRetries := hattempt
      simp only [checkLimitGo]
      simp [this]
    | succ fuel₂' =>
      simp only [checkLimitGo]
      by_cases hc : checkLimitCondition currentPrice limitPrice
      · simp [hc]
      · by_cases ha : attempt ≥ maxRetries
        · simp [hc, ha]
        · have hrec := ih fuel₂' (routeOrderAt env attempt).effectivePrice (attempt + 1)
            (by omega) (by omega)
          simp [hc, ha, hrec]

/-- The alphabet of `MockDexRouter.generateMockTxHash` (62 characters). -/
def mockChars : List Char :=
  "ABCDEFGHIJKLMNOPQRSTUVWXYZabcdefghijklmnopqrstuvwxyz0123456789".toList

/-- JS `String.prototype.charAt`: one character for an in-range index,
the empty string for an out-of-range one. -/
def charAt (s : List Char) (i : Int) : List Char :=
  if h : 0 ≤ i ∧ i.toNat < s.length then [s.get ⟨i.toNat, h.2⟩] else []

/-- `MockDexRouter.generateMockTxHash`: 88 loop iterations, each
appending `chars.charAt(Math.floor(Math.random() * chars.length))`;
iteration `i` consumes the draw `txR i`. -/
def generateMockTxHash (txR : Nat → ℚ) : String :=
  ⟨(List.range 88).foldl
    (fun hash i => hash ++ charAt mockChars ⌊txR i * (mockChars.length : ℚ)⌋) []⟩

/-- A swap settlement, from `src/types/index.ts` (`SwapResult`); the
completion timestamp is not modelled. -/
structure SwapResult where
  txHash : String
  executedPrice : ℚ
deriving DecidableEq, Repr

/-- `MockDexRouter.executeSwap`: executed price
`basePrice * (0.99 + u * 0.02)` for the draw `u`, and a fresh mock
transaction hash.  The simulated 2–3 s latency is a pure wait and is not
modelled as time. -/
def executeSwap (env : Env) : SwapResult :=
  { txHash := generateMockTxHash env.txR
    executedPrice := basePrice * (99 / 100 + env.swapU * (2 / 100)) }

/-- Model of JS `Number.prototype.toFixed(2)` on the rational value: the
value rounded to cents, rendered as `<integer part>.<two fraction
digits>` (e.g. `179.58`).  Only the failure message interpolates it; the
claims read which price is fed into the message, not the exact digit
string. -/
def toFixed2 (q : ℚ) : String :=
  let cents : Int := round (q * 100)
  toString (cents / 100) ++ "." ++
    (if cents.natAbs % 100 < 10 then "0" else "") ++ toString (cents.natAbs % 100)

/-- The error message `processLimitOrder` throws when the gate fails
(`src/services/limitOrderService.ts` lines 190–192), built from
`this.maxRetries`, the *initial* route's effective price and the
order's limit price. -/
def limitNotReachedMessage (attempts : Nat) (bestPrice limitPrice : ℚ) : String :=
  "Limit price not reached after " ++ toString attempts ++
    " attempts. Best price: $" ++ toFixed2 bestPrice ++
    ", Limit: $" ++ toFixed2 limitPrice

/-- One broadcast lifecycle event (`wsManager.emit` payload as built by
`LimitOrderService.emitStatus`), restricted to the structured fields the
service attaches; free-text `message` fields are dropped. -/
structure Event where
  status : OrderStatus
  dex : Option DexType := none
  price : Option ℚ := none
  limitPrice : Option ℚ := none
  txHash : Option String := none
  error : Option String := none
deriving DecidableEq, Repr

/-- One `orderService.updateOrderStatus` call made by
`processLimitOrder`. -/
structure PersistUpdate where
  status : OrderStatus
  dex : Option DexType := none
  executedPrice : Option ℚ := none
  txHash : Option String := none
  errorReason : Option String := none
deriving DecidableEq, Repr

/-- The value `processLimitOrder` resolves with. -/
structure ProcResult where
  success : Bool
  executedPrice : Option ℚ := none
  txHash : Option String := none
  error : Option String := none
deriving DecidableEq, Repr

/-- Everything observable about one `processLimitOrder` run: its return
value, the broadcast events in order, and the persisted status
updates in order. -/
structure ProcOut where
  result : ProcResult
  events : List Event
  updates : List PersistUpdate
deriving DecidableEq, Repr

/-- The Price Gate call performed by `processLimitOrder`: seeded with
the initial route's effective price and the order's limit price. -/
def processGate (env : Env) (order : Order) : GateResult :=
  checkLimitWithRetry env (routeOrderAt env 0).effectivePrice order.limitPrice

/-- `LimitOrderService.processLimitOrder`
(`src/services/limitOrderService.ts` lines 158–246).  Router invocation
0 of the environment is the initial `routeOrder` call (made with the
order's own pair and amount, which the mock quote sources ignore);
invocations 1, 2, … are the gate's retries.  In the mock none of the
awaited steps can reject, so the only exception is the explicit
limit-not-reached `throw`, which the surrounding `catch` turns into a
`failed` broadcast plus a `failed` persisted update. -/
def processLimitOrder (env : Env) (order : Order) : ProcOut :=
  let routeResult := routeOrderAt env 0
  let routingEvent : Event := { status := OrderStatus.routing }
  let limitCheckEvent : Event :=
    { status := OrderStatus.limit_check
      dex := some routeResult.selectedDex
      price := some routeResult.effectivePrice
      limitPrice := some order.limitPrice }
  let gate := processGate env order
  if gate.ok then
    let swapResult := executeSwap env
    { result :=
        { success := true
          executedPrice := some swapResult.executedPrice
          txHash := some swapResult.txHash }
      events :=
        [routingEvent, limitCheckEvent,
         { status := OrderStatus.building },
         { status := OrderStatus.submitted },
         { status := OrderStatus.confirmed
           dex := some routeResult.selectedDex
           price := some swapResult.executedPrice
           txHash := some swapResult.txHash }]
      updates :=
        [{ status := OrderStatus.confirmed
           dex := some routeResult.selectedDex
           executedPrice := some swapResult.executedPrice
           txHash := some swapResult.txHash }] }
  else
    let msg := limitNotReachedMessage maxRetries routeResult.effectivePrice order.limitPrice
    { result := { success := false, error := some msg }
      events :=
        [routingEvent, limitCheckEvent,
         { status := OrderStatus.failed, error := some msg }]
      updates := [{ status := OrderStatus.failed, errorReason := some msg }] }

/-- How the BullMQ processor body of `setupOrderWorker`
(`src/queue/orderQueue.ts` lines 23–56) finishes: normal completion, or
a thrown error. -/
inductive WorkerOutcome
  | completed
  | threw (msg : String)
deriving DecidableEq, Repr

/-- The worker processor: look the order up (throwing when absent), run
`processLimitOrder`, and re-throw its error whenever the run was not
successful — including a limit-not-reached business failure. -/
def workerProcessor (env : Env) (orderId : String) (found : Option Order) :
    WorkerOutcome :=
  match found with
  | none => WorkerOutcome.threw ("Order " ++ orderId ++ " not found")
  | some order =>
    let result := (processLimitOrder env order).result
    if result.success then WorkerOutcome.completed
    else WorkerOutcome.threw (result.error.getD "Order processing failed")

/-- `addOrderToQueue` job options (`src/queue/orderQueue.ts` lines
89–104): `attempts: 3`. -/
def jobAttempts : Nat := 3

/-- `addOrderToQueue` job options: exponential backoff with base delay
1000 ms, so re-attempt `n` (1-based) waits `1000 * 2^(n-1)` ms. -/
def backoffDelayMs (attemptsMade : Nat) : Nat := 1000 * 2 ^ (attemptsMade - 1)

/-- Modelled from the spec: the Scheduler "retried as a unit up to `R`
times (default 3) with exponentially increasing delay" when a run
raises.  This is BullMQ's job-retry behaviour for a job configured with
`attempts` and a `backoff` policy (the BullMQ library itself is not part
of the repository): a job is re-run exactly when its processor threw and
fewer than `jobAttempts` processing attempts have been made. -/
def schedulerReruns (outcome : WorkerOutcome) (attemptsMade : Nat) : Bool :=
  (match outcome with
    | WorkerOutcome.threw _ => true
    | WorkerOutcome.completed => false) && decide (attemptsMade < jobAttempts)

/-- The subscriber registry of `WebSocketManager`
(`src/websocket/wsManager.ts`): a JS `Map` from order id to a JS `Set`
of sockets.  Sockets are opaque handles, modelled as naturals; `Map` and
`Set` are modelled as insertion-ordered association/element lists with
unique keys/elements, matching JS `Map`/`Set` semantics. -/
abbrev Registry := List (String × List Nat)

/-- JS `Map.prototype.get` on the registry. -/
def lookupSubs : Registry → String → Option (List Nat)
  | [], _ => none
  | (k, v) :: rest, orderId => if k = orderId then some v else lookupSubs rest orderId

/-- JS `Map.prototype.set`: update the entry in place, or append a new
one. -/
def mapSet : Registry → String → List Nat → Registry
  | [], orderId, v => [(orderId, v)]
  | (k, w) :: rest, orderId, v =>
    if k = orderId then (k, v) :: rest else (k, w) :: mapSet rest orderId v

/-- JS `Map.prototype.delete`: remove the entry with the given key. -/
def mapDelete : Registry → String → Registry
  | [], _ => []
  | (k, w) :: rest, orderId =>
    if k = orderId then rest else (k, w) :: mapDelete rest orderId

/-- JS `Set.prototype.add`: append the element when absent. -/
def setAdd (s : List Nat) (x : Nat) : List Nat :=
  if x ∈ s then s else s ++ [x]

/-- `WebSocketManager.register` (`src/websocket/wsManager.ts` lines
12–18): ensure the order has an entry (a fresh empty set when absent),
then add the socket to it.  The `none` fallback mirrors the source's
non-null assertion `this.connections.get(orderId)!` and is unreachable
because the entry was just ensured. -/
def register (reg : Registry) (orderId : String) (socket : Nat) : Registry :=
  let reg1 := if (lookupSubs reg orderId).isSome then reg else mapSet reg orderId []
  match lookupSubs reg1 orderId with
  | some s => mapSet reg1 orderId (setAdd s socket)
  | none => reg1

/-- `WebSocketManager.unregister` (lines 23–31): with no entry, do
nothing; otherwise delete the socket from the set and, when the set
became empty, delete the whole entry. -/
def unregister (reg : Registry) (orderId : String) (socket : Nat) : Registry :=
  match lookupSubs reg orderId with
  | none => reg
  | some s =>
    let s' := s.erase socket
    if s'.length = 0 then mapDelete reg orderId else mapSet reg orderId s'

/-- `WebSocketManager.getConnectionCount` (lines 56–58):
`connections.get(orderId)?.size || 0`. -/
def getConnectionCount (reg : Registry) (orderId : String) : Nat :=
  ((lookupSubs reg orderId).map List.length).getD 0

/-- `WebSocketManager.emit` (lines 36–51): the sockets the serialized
payload is sent to — every socket registered for the order whose
`readyState` is `OPEN` (openness supplied as a predicate on handles),
in registration order; with no registry entry nothing is sent. -/
def emitTargets (isOpen : Nat → Bool) (reg : Registry) (orderId : String) : List Nat :=
  ((lookupSubs reg orderId).getD []).filter isOpen

/-- A subscribe or unsubscribe operation against the registry (the only
registry mutations the transport layer performs, see
`src/routes/orders.ts` lines 404–445). -/
inductive WsOp
  | sub (orderId : String) (socket : Nat)
  | unsub (orderId : String) (socket : Nat)
deriving DecidableEq, Repr

/-- Apply one operation to the registry. -/
def applyOp (st : Registry) : WsOp → Registry
  | WsOp.sub orderId socket => register st orderId socket
  | WsOp.unsub orderId socket => unregister st orderId socket

/-- Run a sequence of subscribe/unsubscribe operations from the empty
registry (the manager starts with `new Map()`). -/
def runOps (ops : List WsOp) : Registry := ops.foldl applyOp []

/-- Registry well-formedness: keys are unique, and every entry holds a
non-empty, duplicate-free socket set. -/
def RegistryWF (st : Registry) : Prop :=
  (st.map Prod.fst).Nodup ∧ ∀ p ∈ st, p.2 ≠ [] ∧ p.2.Nodup

theorem lookupSubs_mapSet_self (reg : Registry) (k : String) (v : List Nat) :
    lookupSubs (mapSet reg k v) k = some v := by
  induction reg with
  | nil => simp [mapSet, lookupSubs]
  | cons p rest ih =>
    obtain ⟨k₁, w⟩ := p
    by_cases h : k₁ = k
    · simp [mapSet, lookupSubs, h]
    · simp [mapSet, lookupSubs, h, ih]

theorem lookupSubs_mapSet_ne (reg : Registry) (k k' : String) (v : List Nat)
    (h : k' ≠ k) : lookupSubs (mapSet reg k v) k' = lookupSubs reg k' := by
  have hks : ¬ k = k' := fun hh => h hh.symm
  induction reg with
  | nil => simp [mapSet, lookupSubs, hks]
  | cons p rest ih =>
    obtain ⟨k₁, w⟩ := p
    by_cases h₁ : k₁ = k
    · subst h₁
      simp [mapSet, lookupSubs, hks]
    · simp [mapSet, lookupSubs, h₁, ih]

theorem lookupSubs_eq_none_of_not_mem (reg : Registry) (k : String)
    (h : k ∉ reg.map Prod.fst) : lookupSubs reg k = none := by
  induction reg with
  | nil => rfl
  | cons p rest ih =>
    obtain ⟨k₁, w⟩ := p
    simp only [List.map_cons, List.mem_cons] at h
    push_neg at h
    have h1 : ¬ k₁ = k := fun hh => h.1 hh.symm
    simp [lookupSubs, h1, ih h.2]

theorem lookupSubs_mapDelete_self (reg : Registry) (k : String)
    (hnd : (reg.map Prod.fst).Nodup) :
    lookupSubs (mapDelete reg k) k = none := by
  induction reg with
  | nil => simp [mapDelete, lookupSubs]
  | cons p rest ih =>
    obtain ⟨k₁, w⟩ := p
    simp only [List.map_cons, List.nodup_cons] at hnd
    by_cases h : k₁ = k
    · subst h
      simp [mapDelete, lookupSubs_eq_none_of_not_mem rest k₁ hnd.1]
    · simp [mapDelete, lookupSubs, h, ih hnd.2]

theorem lookupSubs_mapDelete_ne (reg : Registry) (k k' : String) (h : k' ≠ k) :
    lookupSubs (mapDelete reg k) k' = lookupSubs reg k' := by
  induction reg with
  | nil => simp [mapDelete, lookupSubs]
  | cons p rest ih =>
    obtain ⟨k₁, w⟩ := p
    by_cases h₁ : k₁ = k
    · subst h₁
      have hks : ¬ k₁ = k' := fun hh => h hh.symm
      simp [mapDelete, lookupSubs, hks]
    · simp [mapDelete, lookupSubs, h₁, ih]

theorem mem_mapSet (reg : Registry) (k : String) (v : List Nat) (p : String × List Nat)
    (h : p ∈ mapSet reg k v) : p = (k, v) ∨ p ∈ reg := by
  induction reg with
  | nil => simpa [mapSet] using h
  | cons q rest ih =>
    obtain ⟨k₁, w⟩ := q
    by_cases h₁ : k₁ = k
    · subst h₁
      simp only [mapSet, if_true, eq_self_iff_true, List.mem_cons] at h
      rcases h with h | h
      · exact Or.inl h
      · exact Or.inr (List.mem_cons_of_mem _ h)
    · simp only [mapSet, if_neg h₁, List.mem_cons] at h
      rcases h with h | h
      · exact Or.inr (by simp [h])
      · rcases ih h with h' | h'
        · exact Or.inl h'
        · exact Or.inr (List.mem_cons_of_mem _ h')

theorem mem_mapDelete (reg : Registry) (k : String) (p : String × List Nat)
    (h : p ∈ mapDelete reg k) : p ∈ reg := by
  induction reg with
  | nil => simp [mapDelete] at h
  | cons q rest ih =>
    obtain ⟨k₁, w⟩ := q
    by_cases h₁ : k₁ = k
    · subst h₁
      simp only [mapDelete, if_true, eq_self_iff_true] at h
      exact List.mem_cons_of_mem _ h
    · simp only [mapDelete, if_neg h₁, List.mem_cons] at h
      rcases h with h | h
      · simp [h]
      · exact List.mem_cons_of_mem _ (ih h)

theorem keys_mapSet (reg : Registry) (k : String) (v : List Nat) :
    (mapSet reg k v).map Prod.fst =
      if k ∈ reg.map Prod.fst then reg.map Prod.fst
      else reg.map Prod.fst ++ [k] := by
  induction reg with
  | nil => simp [mapSet]
  | cons p rest ih =>
    obtain ⟨k₁, w⟩ := p
    by_cases h₁ : k₁ = k
    · subst h₁
      simp [mapSet]
    · have h₂ : ¬ k = k₁ := fun hh => h₁ hh.symm
      by_cases h₃ : k ∈ rest.map Prod.fst
      · simp [mapSet, h₁, h₂, h₃, ih]
      · simp [mapSet, h₁, h₂, h₃, ih]

theorem keys_mapSet_nodup (reg : Registry) (k : String) (v : List Nat)
    (h : (reg.map Prod.fst).Nodup) :
    ((mapSet reg k v).map Prod.fst).Nodup := by
  rw [keys_mapSet]
  by_cases h₃ : k ∈ reg.map Prod.fst
  · simpa [h₃] using h
  · simp [h₃, List.nodup_append, h]

theorem keys_mapDelete_sublist (reg : Registry) (k : String) :
    ((mapDelete reg k).map Prod.fst).Sublist (reg.map Prod.fst) := by
  induction reg with
  | nil => simp [mapDelete]
  | cons q rest ih =>
    obtain ⟨k₁, w⟩ := q
    by_cases h₁ : k₁ = k
    · subst h₁
      simp only [mapDelete, if_pos rfl, List.map_cons]
      exact List.Sublist.cons _ (List.Sublist.refl _)
    · simp only [mapDelete, if_neg h₁, List.map_cons]
      exact ih.cons₂ _

theorem mem_of_lookupSubs (reg : Registry) (k : String) (s : List Nat)
    (h : lookupSubs reg k = some s) : (k, s) ∈ reg := by
  induction reg with
  | nil => simp [lookupSubs] at h
  | cons p rest ih =>
    obtain ⟨k₁, w⟩ := p
    by_cases h₁ : k₁ = k
    · subst h₁
      simp only [lookupSubs, if_true, eq_self_iff_true, Option.some.injEq] at h
      simp [h]
    · simp only [lookupSubs, if_neg h₁] at h
      exact List.mem_cons_of_mem _ (ih h)

theorem mapSet_mapSet (reg : Registry) (k : String) (v₁ v₂ : List Nat) :
    mapSet (mapSet reg k v₁) k v₂ = mapSet reg k v₂ := by
  induction reg with
  | nil => simp [mapSet]
  | cons p rest ih =>
    obtain ⟨k₁, w⟩ := p
    by_cases h₁ : k₁ = k
    · simp [mapSet, h₁]
    · simp [mapSet, h₁, ih]

theorem setAdd_ne_nil (s : List Nat) (x : Nat) : setAdd s x ≠ [] := by
  by_cases hx : x ∈ s
  · simp only [setAdd, if_pos hx]
    intro hnil
    rw [hnil] at hx
    exact absurd hx (List.not_mem_nil x)
  · simp [setAdd, hx]

theorem setAdd_nodup (s : List Nat) (x : Nat) (h : s.Nodup) : (setAdd s x).Nodup := by
  by_cases hx : x ∈ s
  · simpa [setAdd, hx] using h
  · simp [setAdd, hx, List.nodup_append, h]

theorem mem_setAdd_self (s : List Nat) (x : Nat) : x ∈ setAdd s x := by
  by_cases hx : x ∈ s
  · simp [setAdd, hx]
  · simp [setAdd, hx]

theorem setAdd_eq_self_of_mem (s : List Nat) (x : Nat) (hx : x ∈ s) :
    setAdd s x = s := by
  simp [setAdd, hx]

/-- `register` in one equation: it maps the order to the previous
subscriber set (empty when absent) with the socket added. -/
theorem register_eq (reg : Registry) (orderId : String) (socket : Nat) :
    register reg orderId socket =
      mapSet reg orderId (setAdd ((lookupSubs reg orderId).getD []) socket) := by
  unfold register
  cases hls : lookupSubs reg orderId with
  | none =>
    simp only [hls, Option.isSome_none, Bool.false_eq_true, if_false, Option.getD_none]
    rw [lookupSubs_mapSet_self]
    exact mapSet_mapSet reg orderId [] (setAdd [] socket)
  | some s =>
    simp only [hls, Option.isSome_some, if_true, Option.getD_some]

theorem register_WF (reg : Registry) (orderId : String) (socket : Nat)
    (h : RegistryWF reg) : RegistryWF (register reg orderId socket) := by
  obtain ⟨hkeys, hvals⟩ := h
  rw [register_eq]
  refine ⟨keys_mapSet_nodup _ _ _ hkeys, ?_⟩
  intro p hp
  rcases mem_mapSet _ _ _ _ hp with hp' | hp'
  · subst hp'
    refine ⟨setAdd_ne_nil _ _, setAdd_nodup _ _ ?_⟩
    cases hls : lookupSubs reg orderId with
    | none => simp
    | some s => simpa using (hvals _ (mem_of_lookupSubs reg orderId s hls)).2
  · exact hvals _ hp'

theorem unregister_WF (reg : Registry) (orderId : String) (socket : Nat)
    (h : RegistryWF reg) : RegistryWF (unregister reg orderId socket) := by
  obtain ⟨hkeys, hvals⟩ := h
  unfold unregister
  cases hls : lookupSubs reg orderId with
  | none => exact ⟨hkeys, hvals⟩
  | some s =>
    by_cases hlen : (s.erase socket).length = 0
    · simp only [hlen, if_true]
      exact ⟨hkeys.sublist (keys_mapDelete_sublist reg orderId),
        fun p hp => hvals p (mem_mapDelete _ _ _ hp)⟩
    · simp only [hlen, if_false]
      refine ⟨keys_mapSet_nodup _ _ _ hkeys, ?_⟩
      intro p hp
      rcases mem_mapSet _ _ _ _ hp with hp' | hp'
      · subst hp'
        have hsprops := hvals _ (mem_of_lookupSubs reg orderId s hls)
        refine ⟨?_, hsprops.2.erase _⟩
        intro hnil
        have hnil' : s.erase socket = [] := hnil
        rw [hnil'] at hlen
        simp at hlen
      · exact hvals _ hp'

/-- Every registry reachable from the empty one by subscribe and
unsubscribe operations is well-formed: unique keys, and every entry a
non-empty, duplicate-free socket set. -/
theorem runOps_WF (ops : List WsOp) : RegistryWF (runOps ops) := by
  suffices h : ∀ st, RegistryWF st → RegistryWF (ops.foldl applyOp st) by
    refine h [] ⟨List.nodup_nil, ?_⟩
    intro p hp
    simp at hp
  induction ops with
  | nil => intro st h; exact h
  | cons op rest ih =>
    intro st h
    cases op with
    | sub orderId socket => exact ih _ (register_WF _ _ _ h)
    | unsub orderId socket => exact ih _ (unregister_WF _ _ _ h)

/-! ### Concrete inputs used by witnesses and counterexamples -/

/-- A concrete environment whose draws are all zero: every quote sits at
the bottom of its variance band. -/
def env0 : Env := { routeR := fun _ => (0, 0), swapU := 0, txR := fun _ => 0 }

/-- An environment whose retry invocations see different draws than the
initial route, so the last observed effective price differs from the
first. -/
def env1 : Env :=
  { routeR := fun n => if n = 0 then (0, 0) else (1 / 2, 1 / 2)
    swapU := 0
    txR := fun _ => 0 }

/-- A concrete LIMIT order whose limit price (1) is far below any mock
quote (≈ 180), so the gate can never succeed. -/
def lowLimitOrder : Order :=
  { id := "order-1", tokenIn := "ETH", tokenOut := "USDT", amountIn := 10, limitPrice := 1 }

/-! ### Run-shape lemmas -/

/-- A satisfied first check returns immediately: no wait, no retry
routing. -/
theorem checkLimitWithRetry_first_le (env : Env) (p lim : ℚ) (h : p ≤ lim) :
    checkLimitWithRetry env p lim =
      { ok := true, checks := 1, sleeps := 0, routeCalls := [], lastPrice := p } := by
  unfold checkLimitWithRetry checkLimitGo
  simp [checkLimitCondition, h]

/-- When the seeded price and both retry prices all miss the limit, the
gate performs exactly `maxRetries` (= 3) limit evaluations, waits twice,
makes two retry router invocations, fails, and its final call frame
holds the effective price of the last retry. -/
theorem checkLimitWithRetry_all_fail (env : Env) (p0 limitPrice : ℚ)
    (h0 : ¬ p0 ≤ limitPrice)
    (h1 : ¬ (routeOrderAt env 1).effectivePrice ≤ limitPrice)
    (h2 : ¬ (routeOrderAt env 2).effectivePrice ≤ limitPrice) :
    checkLimitWithRetry env p0 limitPrice =
      { ok := false, checks := 3, sleeps := 2,
        routeCalls := [{ tokenIn := "SOL", tokenOut := "USDC", amount := 3 / 2 },
                       { tokenIn := "SOL", tokenOut := "USDC", amount := 3 / 2 }],
        lastPrice := (routeOrderAt env 2).effectivePrice } := by
  unfold checkLimitWithRetry maxRetries
  simp [checkLimitGo, checkLimitCondition, h0, h1, h2, maxRetries]

/-- The shape of a run whose gate fails: `routing` and one `limit_check`
broadcast, then a `failed` broadcast and a `failed` persisted update,
both carrying the message rendered from the initial route's effective
price. -/
theorem processLimitOrder_gate_fail (env : Env) (order : Order)
    (h : (processGate env order).ok = false) :
    processLimitOrder env order =
      { result :=
          { success := false
            error := some (limitNotReachedMessage maxRetries
              (routeOrderAt env 0).effectivePrice order.limitPrice) }
        events :=
          [{ status := OrderStatus.routing },
           { status := OrderStatus.limit_check
             dex := some (routeOrderAt env 0).selectedDex
             price := some (routeOrderAt env 0).effectivePrice
             limitPrice := some order.limitPrice },
           { status := OrderStatus.failed
             error := some (limitNotReachedMessage maxRetries
               (routeOrderAt env 0).effectivePrice order.limitPrice) }]
        updates :=
          [{ status := OrderStatus.failed
             errorReason := some (limitNotReachedMessage maxRetries
               (routeOrderAt env 0).effectivePrice order.limitPrice) }] } := by
  unfold processLimitOrder
  simp [h]

/-- The shape of a run whose gate succeeds: the full happy path through
`building`, `submitted` and `confirmed`. -/
theorem processLimitOrder_gate_ok (env : Env) (order : Order)
    (h : (processGate env order).ok = true) :
    processLimitOrder env order =
      { result :=
          { success := true
            executedPrice := some (executeSwap env).executedPrice
            txHash := some (executeSwap env).txHash }
        events :=
          [{ status := OrderStatus.routing },
           { status := OrderStatus.limit_check
             dex := some (routeOrderAt env 0).selectedDex
             price := some (routeOrderAt env 0).effectivePrice
             limitPrice := some order.limitPrice },
           { status := OrderStatus.building },
           { status := OrderStatus.submitted },
           { status := OrderStatus.confirmed
             dex := some (routeOrderAt env 0).selectedDex
             price := some (executeSwap env).executedPrice
             txHash := some (executeSwap env).txHash }]
        updates :=
          [{ status := OrderStatus.confirmed
             dex := some (routeOrderAt env 0).selectedDex
             executedPrice := some (executeSwap env).executedPrice
             txHash := some (executeSwap env).txHash }] } := by
  unfold processLimitOrder
  simp [h]

/-- Concrete evaluation: every router invocation under `env0` selects
METEORA at price 179.935 with effective price 179.57513. -/
theorem routeOrderAt_env0 (n : Nat) :
    routeOrderAt env0 n =
      { selectedDex := DexType.METEORA, price := 35987 / 200, fee := 1 / 500,
        effectivePrice := 17957513 / 100000 } := by
  unfold routeOrderAt env0 routeOrder getRaydiumQuote getMeteorQuote basePrice
  norm_num
  simp
  norm_num

/-- Concrete evaluation: the initial route under `env1` equals the
`env0` one. -/
theorem routeOrderAt_env1_zero :
    routeOrderAt env1 0 =
      { selectedDex := DexType.METEORA, price := 35987 / 200, fee := 1 / 500,
        effectivePrice := 17957513 / 100000 } := by
  unfold routeOrderAt env1 routeOrder getRaydiumQuote getMeteorQuote basePrice
  norm_num
  simp
  norm_num

/-- Concrete evaluation: every retry route under `env1` (draws 1/2)
selects METEORA at price 184.5725 with effective price 184.203355. -/
theorem routeOrderAt_env1_pos (n : Nat) (h : n ≠ 0) :
    routeOrderAt env1 n =
      { selectedDex := DexType.METEORA, price := 369145 / 2000, fee := 1 / 500,
        effectivePrice := 36840671 / 200000 } := by
  unfold routeOrderAt env1 routeOrder getRaydiumQuote getMeteorQuote basePrice
  simp only [h, if_false]
  norm_num
  simp
  norm_num

/-- Under `env0`, the low-limit order's gate exhausts all three
attempts. -/
theorem processGate_env0_lowLimit :
    processGate env0 lowLimitOrder =
      { ok := false, checks := 3, sleeps := 2,
        routeCalls := [{ tokenIn := "SOL", tokenOut := "USDC", amount := 3 / 2 },
                       { tokenIn := "SOL", tokenOut := "USDC", amount := 3 / 2 }],
        lastPrice := (routeOrderAt env0 2).effectivePrice } := by
  unfold processGate
  refine checkLimitWithRetry_all_fail env0 _ _ ?_ ?_ ?_ <;>
    simp [routeOrderAt_env0, lowLimitOrder] <;> norm_num

/-- Under `env1`, the low-limit order's gate exhausts all three
attempts. -/
theorem processGate_env1_lowLimit :
    processGate env1 lowLimitOrder =
      { ok := false, checks := 3, sleeps := 2,
        routeCalls := [{ tokenIn := "SOL", tokenOut := "USDC", amount := 3 / 2 },
                       { tokenIn := "SOL", tokenOut := "USDC", amount := 3 / 2 }],
        lastPrice := (routeOrderAt env1 2).effectivePrice } := by
  unfold processGate
  refine checkLimitWithRetry_all_fail env1 _ _ ?_ ?_ ?_
  · simp [routeOrderAt_env1_zero, lowLimitOrder]
    norm_num
  · simp [routeOrderAt_env1_pos 1 (by norm_num), lowLimitOrder]
    norm_num
  · simp [routeOrderAt_env1_pos 2 (by norm_num), lowLimitOrder]
    norm_num

/-! ### C6 — Venue Router selection and tie-break -/

theorem routeOrder_selectedDex (rq mq : DexQuote) :
    (routeOrder rq mq).selectedDex =
      if rq.price * (1 - rq.fee) < mq.price * (1 - mq.fee)
      then DexType.RAYDIUM else DexType.METEORA := by
  unfold routeOrder
  by_cases h : rq.price * (1 - rq.fee) < mq.price * (1 - mq.fee) <;> simp [h]

theorem routeOrder_effectivePrice (rq mq : DexQuote) :
    (routeOrder rq mq).effectivePrice =
      if rq.price * (1 - rq.fee) < mq.price * (1 - mq.fee)
      then rq.price * (1 - rq.fee) else mq.price * (1 - mq.fee) := by
  unfold routeOrder
  by_cases h : rq.price * (1 - rq.fee) < mq.price * (1 - mq.fee) <;> simp [h]

/-- C6: for every pair of quotes, `routeOrder` computes each venue's
effective price as exactly `price * (1 - fee)`, selects RAYDIUM exactly
when its effective price is strictly lower (so the strictly lower
effective price always wins), deterministically selects the fixed
default venue METEORA on exact equality, and the returned decision's
`effectivePrice` is the selected venue's `price * (1 - fee)`. -/
theorem C6_router_best_price_and_tie_break (rq mq : DexQuote) :
    (routeOrder rq mq).selectedDex =
      (if rq.price * (1 - rq.fee) < mq.price * (1 - mq.fee)
       then DexType.RAYDIUM else DexType.METEORA) ∧
    (routeOrder rq mq).effectivePrice =
      (if (routeOrder rq mq).selectedDex = DexType.RAYDIUM
       then rq.price * (1 - rq.fee) else mq.price * (1 - mq.fee)) ∧
    (rq.price * (1 - rq.fee) = mq.price * (1 - mq.fee) →
      (routeOrder rq mq).selectedDex = DexType.METEORA) := by
  refine ⟨routeOrder_selectedDex rq mq, ?_, ?_⟩
  · rw [routeOrder_effectivePrice, routeOrder_selectedDex]
    by_cases h : rq.price * (1 - rq.fee) < mq.price * (1 - mq.fee) <;> simp [h]
  · intro heq
    rw [routeOrder_selectedDex]
    simp [heq]

/-- C6 witness: two quotes with identical effective price
(`100 * (1 - 0)` each); the fixed default venue METEORA wins. -/
theorem C6_witness :
    (routeOrder { price := 100, fee := 0 } { price := 100, fee := 0 }).selectedDex
      = DexType.METEORA :=
  (C6_router_best_price_and_tie_break
    { price := 100, fee := 0 } { price := 100, fee := 0 }).2.2 (by norm_num)

/-! ### C7 — first-attempt success of the Price Gate -/

/-- C7: when the seeded effective price is at or below the limit price
(equality included), the gate succeeds on attempt 1 with exactly one
limit evaluation, no inter-attempt wait, and no further router
invocation. -/
theorem C7_first_attempt_success (env : Env) (currentPrice limitPrice : ℚ)
    (h : currentPrice ≤ limitPrice) :
    checkLimitWithRetry env currentPrice limitPrice =
      { ok := true, checks := 1, sleeps := 0, routeCalls := [],
        lastPrice := currentPrice } :=
  checkLimitWithRetry_first_le env currentPrice limitPrice h

/-- C7 witness: exact equality of the first effective price and the
limit price counts as satisfied, with no wait and no retry routing. -/
theorem C7_witness :
    checkLimitWithRetry env0 100 100 =
      { ok := true, checks := 1, sleeps := 0, routeCalls := [], lastPrice := 100 } :=
  C7_first_attempt_success env0 100 100 (by norm_num)

/-! ### C9 — no empty registry entries, removal of the last subscriber -/

/-- C9: over every sequence of subscribe/unsubscribe operations the
registry never maps an order id to an empty subscriber set, and
unsubscribing the last remaining subscriber of an order removes the
entry entirely, after which the subscriber count for that order is 0. -/
theorem C9_no_empty_entries (ops : List WsOp) (orderId : String) (socket : Nat) :
    (∀ k s, lookupSubs (runOps ops) k = some s → s ≠ []) ∧
    (lookupSubs (runOps ops) orderId = some [socket] →
      lookupSubs (unregister (runOps ops) orderId socket) orderId = none ∧
      getConnectionCount (unregister (runOps ops) orderId socket) orderId = 0) := by
  obtain ⟨hkeys, hvals⟩ := runOps_WF ops
  constructor
  · intro k s hs
    exact (hvals _ (mem_of_lookupSubs _ _ _ hs)).1
  · intro hlast
    have hnone :
        lookupSubs (unregister (runOps ops) orderId socket) orderId = none := by
      unfold unregister
      rw [hlast]
      simp only [List.erase_cons_head, List.length_nil, if_true]
      exact lookupSubs_mapDelete_self _ _ hkeys
    refine ⟨hnone, ?_⟩
    unfold getConnectionCount
    rw [hnone]
    rfl

/-- C9 witness: subscribe one socket, then unsubscribe it — the
registry entry is gone and the count reads 0. -/
theorem C9_witness :
    ([1] : List Nat) ≠ [] ∧
    lookupSubs (unregister (runOps [WsOp.sub "o1" 1]) "o1" 1) "o1" = none ∧
    getConnectionCount (unregister (runOps [WsOp.sub "o1" 1]) "o1" 1) "o1" = 0 :=
  ⟨(C9_no_empty_entries [WsOp.sub "o1" 1] "o1" 1).1 "o1" [1] (by decide),
   (C9_no_empty_entries [WsOp.sub "o1" 1] "o1" 1).2 (by decide)⟩

/-! ### C10 — idempotent registration, at-most-once delivery -/

/-- C10: from any reachable registry, registering the same socket twice
for the same order is idempotent (the registry, hence the subscriber set
and the subscriber count, is unchanged), a subsequent emit delivers to
that socket at most once, and a single unregister then removes the
socket entirely. -/
theorem C10_register_idempotent (ops : List WsOp) (orderId : String) (socket : Nat)
    (isOpen : Nat → Bool) :
    register (register (runOps ops) orderId socket) orderId socket =
      register (runOps ops) orderId socket ∧
    getConnectionCount (register (register (runOps ops) orderId socket) orderId socket)
        orderId =
      getConnectionCount (register (runOps ops) orderId socket) orderId ∧
    (emitTargets isOpen (register (register (runOps ops) orderId socket) orderId socket)
        orderId).count socket ≤ 1 ∧
    socket ∉
      (lookupSubs
        (unregister (register (register (runOps ops) orderId socket) orderId socket)
          orderId socket) orderId).getD [] := by
  have hidem :
      register (register (runOps ops) orderId socket) orderId socket =
        register (runOps ops) orderId socket := by
    rw [register_eq (runOps ops), register_eq]
    rw [lookupSubs_mapSet_self]
    simp only [Option.getD_some]
    rw [setAdd_eq_self_of_mem _ _ (mem_setAdd_self _ _), mapSet_mapSet]
  have hwf : RegistryWF (register (runOps ops) orderId socket) :=
    register_WF _ _ _ (runOps_WF ops)
  have hlook :
      lookupSubs (register (runOps ops) orderId socket) orderId =
        some (setAdd ((lookupSubs (runOps ops) orderId).getD []) socket) := by
    rw [register_eq, lookupSubs_mapSet_self]
  have hnodup : (setAdd ((lookupSubs (runOps ops) orderId).getD []) socket).Nodup :=
    (hwf.2 _ (mem_of_lookupSubs _ _ _ hlook)).2
  refine ⟨hidem, by rw [hidem], ?_, ?_⟩
  · rw [hidem]
    unfold emitTargets
    rw [hlook]
    simp only [Option.getD_some]
    exact List.nodup_iff_count_le_one.mp (hnodup.filter _) socket
  · rw [hidem]
    unfold unregister
    rw [hlook]
    by_cases hlen :
        ((setAdd ((lookupSubs (runOps ops) orderId).getD []) socket).erase socket).length = 0
    · simp only [hlen, if_true]
      rw [lookupSubs_mapDelete_self _ _ hwf.1]
      simp
    · simp only [hlen, if_false]
      rw [lookupSubs_mapSet_self]
      simp only [Option.getD_some]
      intro hmem
      exact absurd ((hnodup.mem_erase_iff).mp hmem).1 (by simp)

/-! ### C1 — LimitNotReached and the scheduler's retry -/

/-- C1 counterexample: the gate of a concrete low-limit order exhausts
its attempts (a LimitNotReached business outcome, `success = false`),
yet the worker throws and the job — configured with `attempts: 3` and
exponential backoff — is re-run by the scheduler. -/
theorem C1_counterexample :
    (processGate env0 lowLimitOrder).ok = false ∧
    (processLimitOrder env0 lowLimitOrder).result.success = false ∧
    schedulerReruns (workerProcessor env0 lowLimitOrder.id (some lowLimitOrder)) 1
      = true := by
  have hgate : (processGate env0 lowLimitOrder).ok = false := by
    rw [processGate_env0_lowLimit]
  have hfail : (processLimitOrder env0 lowLimitOrder).result.success = false := by
    rw [processLimitOrder_gate_fail env0 lowLimitOrder hgate]
  refine ⟨hgate, hfail, ?_⟩
  unfold workerProcessor schedulerReruns
  simp [hfail, jobAttempts]

/-- C1 amended: the worker throws for every unsuccessful run — a
LimitNotReached business failure included — so the scheduler's
whole-run retry (up to the configured 3 attempts, exponential backoff)
is triggered by LimitNotReached results exactly as by unexpected
errors; a run is left un-retried only once its job attempts are
exhausted. -/
theorem C1_amended_reruns_limit_not_reached (env : Env) (order : Order)
    (attemptsMade : Nat)
    (hfail : (processLimitOrder env order).result.success = false)
    (hleft : attemptsMade < jobAttempts) :
    schedulerReruns (workerProcessor env order.id (some order)) attemptsMade
      = true := by
  unfold workerProcessor schedulerReruns
  simp [hfail, hleft]

/-- C1 witness: the amended statement at the concrete failing run. -/
theorem C1_witness :
    schedulerReruns (workerProcessor env1 lowLimitOrder.id (some lowLimitOrder)) 2
      = true :=
  C1_amended_reruns_limit_not_reached env1 lowLimitOrder 2
    (by rw [processLimitOrder_gate_fail env1 lowLimitOrder
      (by rw [processGate_env1_lowLimit])])
    (by norm_num [jobAttempts])

/-! ### C2 — retry arguments of the Venue Router re-invocation -/

/-- C2: for a concrete ETH→USDT order of amount 10 whose limit is never
reached, both retry router invocations are made with the hardcoded
arguments `('SOL', 'USDC', 1.5)` — not the order's own pair and amount. -/
theorem C2_retry_uses_hardcoded_args :
    (processGate env0 lowLimitOrder).routeCalls =
      [{ tokenIn := "SOL", tokenOut := "USDC", amount := 3 / 2 },
       { tokenIn := "SOL", tokenOut := "USDC", amount := 3 / 2 }] ∧
    lowLimitOrder.tokenIn = "ETH" ∧
    lowLimitOrder.tokenOut = "USDT" ∧
    lowLimitOrder.amountIn = 10 ∧
    ({ tokenIn := "SOL", tokenOut := "USDC", amount := 3 / 2 } : RouteCall) ≠
      { tokenIn := lowLimitOrder.tokenIn, tokenOut := lowLimitOrder.tokenOut,
        amount := lowLimitOrder.amountIn } := by
  refine ⟨?_, rfl, rfl, rfl, ?_⟩
  · rw [processGate_env0_lowLimit]
  · simp [lowLimitOrder]

/-! ### C3 — one `limit_check` broadcast per run, not per attempt -/

/-- C3 counterexample: under `env0` the low-limit order's gate performs
3 attempts, yet exactly one `limit_check` event is broadcast — not one
per attempt. -/
theorem C3_counterexample :
    ((processLimitOrder env0 lowLimitOrder).events.map Event.status).count
        OrderStatus.limit_check = 1 ∧
    (processGate env0 lowLimitOrder).checks = 3 ∧
    ((processLimitOrder env0 lowLimitOrder).events.map Event.status).count
        OrderStatus.limit_check ≠ (processGate env0 lowLimitOrder).checks := by
  have hgate : (processGate env0 lowLimitOrder).ok = false := by
    rw [processGate_env0_lowLimit]
  rw [processLimitOrder_gate_fail env0 lowLimitOrder hgate, processGate_env0_lowLimit]
  refine ⟨?_, rfl, ?_⟩ <;> simp [List.count_cons]

/-- C3 amended: exactly one `limit_check` event is broadcast per run —
after the initial routing, before the gate attempts — regardless of the
number of gate attempts performed. -/
theorem C3_amended_single_limit_check (env : Env) (order : Order) :
    ((processLimitOrder env order).events.map Event.status).count
        OrderStatus.limit_check = 1 := by
  rcases Bool.eq_false_or_eq_true (processGate env order).ok with h | h
  · rw [processLimitOrder_gate_ok env order h]
    simp [List.count_cons]
  · rw [processLimitOrder_gate_fail env order h]
    simp [List.count_cons]

/-! ### C4 — exhaustion count and the price carried by the failure -/

theorem round_cents_first : round ((17957513 / 100000 : ℚ) * 100) = 17958 := by
  rw [round_eq]
  norm_num [Int.floor_eq_iff]

theorem round_cents_last : round ((36840671 / 200000 : ℚ) * 100) = 18420 := by
  rw [round_eq]
  norm_num [Int.floor_eq_iff]

theorem round_cents_one : round ((1 : ℚ) * 100) = 100 := by
  rw [round_eq]
  norm_num [Int.floor_eq_iff]

theorem toFixed2_first : toFixed2 (17957513 / 100000) = "179.58" := by
  unfold toFixed2
  rw [round_cents_first]
  decide

theorem toFixed2_last : toFixed2 (36840671 / 200000) = "184.20" := by
  unfold toFixed2
  rw [round_cents_last]
  decide

theorem toFixed2_one : toFixed2 1 = "1.00" := by
  unfold toFixed2
  rw [round_cents_one]
  decide

/-- C4 counterexample: under `env1` the gate's last observed effective
price (184.203355, from the final attempt) differs from the initial
route's (179.57513), and the persisted failure reason is rendered from
the FIRST price — it is not the message carrying the last observed
price. -/
theorem C4_counterexample :
    (processLimitOrder env1 lowLimitOrder).updates =
      [{ status := OrderStatus.failed,
         errorReason := some (limitNotReachedMessage maxRetries
           (routeOrderAt env1 0).effectivePrice lowLimitOrder.limitPrice) }] ∧
    (processGate env1 lowLimitOrder).lastPrice = (routeOrderAt env1 2).effectivePrice ∧
    (routeOrderAt env1 0).effectivePrice ≠ (routeOrderAt env1 2).effectivePrice ∧
    limitNotReachedMessage maxRetries (routeOrderAt env1 0).effectivePrice
        lowLimitOrder.limitPrice ≠
      limitNotReachedMessage maxRetries (processGate env1 lowLimitOrder).lastPrice
        lowLimitOrder.limitPrice := by
  have hgate : (processGate env1 lowLimitOrder).ok = false := by
    rw [processGate_env1_lowLimit]
  refine ⟨by rw [processLimitOrder_gate_fail env1 lowLimitOrder hgate],
    by rw [processGate_env1_lowLimit], ?_, ?_⟩
  · rw [routeOrderAt_env1_zero, routeOrderAt_env1_pos 2 (by norm_num)]
    norm_num
  · rw [processGate_env1_lowLimit, routeOrderAt_env1_zero,
      routeOrderAt_env1_pos 2 (by norm_num)]
    show limitNotReachedMessage maxRetries (17957513 / 100000) lowLimitOrder.limitPrice ≠
      limitNotReachedMessage maxRetries (36840671 / 200000) lowLimitOrder.limitPrice
    unfold limitNotReachedMessage lowLimitOrder
    rw [toFixed2_first, toFixed2_last, toFixed2_one]
    decide

/-- C4 amended: when no attempt satisfies the limit, the gate performs
exactly `maxAttempts` (= `maxRetries` = 3) limit evaluations and the run
fails with `LimitNotReached`; the reported failure carries the FIRST
observed effective price — the one from the initial routing — not the
one from the final attempt. -/
theorem C4_amended_exhaustion_carries_first_price (env : Env) (order : Order)
    (h0 : ¬ (routeOrderAt env 0).effectivePrice ≤ order.limitPrice)
    (h1 : ¬ (routeOrderAt env 1).effectivePrice ≤ order.limitPrice)
    (h2 : ¬ (routeOrderAt env 2).effectivePrice ≤ order.limitPrice) :
    (processGate env order).checks = maxRetries ∧
    (processGate env order).ok = false ∧
    (processLimitOrder env order).updates =
      [{ status := OrderStatus.failed,
         errorReason := some (limitNotReachedMessage maxRetries
           (routeOrderAt env 0).effectivePrice order.limitPrice) }] := by
  have hg : processGate env order =
      { ok := false, checks := 3, sleeps := 2,
        routeCalls := [{ tokenIn := "SOL", tokenOut := "USDC", amount := 3 / 2 },
                       { tokenIn := "SOL", tokenOut := "USDC", amount := 3 / 2 }],
        lastPrice := (routeOrderAt env 2).effectivePrice } :=
    checkLimitWithRetry_all_fail env _ _ h0 h1 h2
  refine ⟨by rw [hg]; rfl, by rw [hg], ?_⟩
  rw [processLimitOrder_gate_fail env order (by rw [hg])]

/-- C4 witness: the amended statement at the concrete always-failing
run. -/
theorem C4_witness :
    (processGate env0 lowLimitOrder).checks = maxRetries ∧
    (processGate env0 lowLimitOrder).ok = false ∧
    (processLimitOrder env0 lowLimitOrder).updates =
      [{ status := OrderStatus.failed,
         errorReason := some (limitNotReachedMessage maxRetries
           (routeOrderAt env0 0).effectivePrice lowLimitOrder.limitPrice) }] :=
  C4_amended_exhaustion_carries_first_price env0 lowLimitOrder
    (by rw [routeOrderAt_env0]; norm_num [lowLimitOrder])
    (by rw [routeOrderAt_env0]; norm_num [lowLimitOrder])
    (by rw [routeOrderAt_env0]; norm_num [lowLimitOrder])

/-! ### C5 — shape of the broadcast status sequence -/

/-- C5: for every run, the broadcast status sequence is a subsequence of
`pending, routing, limit_check*, building, submitted, (confirmed|failed)`
(the `limit_check*` block realized at its actual count, and the terminal
being the run's actual outcome), no `limit_check` is broadcast at or
after `building`, and `confirmed`/`failed` occur only as the final
broadcast — so no status is ever broadcast after a terminal one. -/
theorem C5_status_sequence_shape (env : Env) (order : Order) :
    ((processLimitOrder env order).events.map Event.status).Sublist
      [OrderStatus.pending, OrderStatus.routing, OrderStatus.limit_check,
       OrderStatus.building, OrderStatus.submitted,
       if (processGate env order).ok then OrderStatus.confirmed else OrderStatus.failed] ∧
    (((processLimitOrder env order).events.map Event.status).dropWhile
        (fun s => !decide (s = OrderStatus.building))).count OrderStatus.limit_check = 0 ∧
    OrderStatus.confirmed ∉ ((processLimitOrder env order).events.map Event.status).dropLast ∧
    OrderStatus.failed ∉ ((processLimitOrder env order).events.map Event.status).dropLast := by
  rcases Bool.eq_false_or_eq_true (processGate env order).ok with h | h
  · rw [processLimitOrder_gate_ok env order h, h]
    refine ⟨?_, ?_, ?_, ?_⟩ <;> simp [List.dropWhile, List.dropLast]
  · rw [processLimitOrder_gate_fail env order h, h]
    refine ⟨?_, ?_, ?_, ?_⟩ <;> simp [List.dropWhile, List.dropLast]

/-! ### C8 — consistency of persisted terminal outcomes -/

theorem limitNotReachedMessage_length (a : Nat) (b c : ℚ) :
    30 ≤ (limitNotReachedMessage a b c).length := by
  unfold limitNotReachedMessage
  simp only [String.length_append]
  have h30 : ("Limit price not reached after " : String).length = 30 := by decide
  omega

theorem limitNotReachedMessage_ne_empty (a : Nat) (b c : ℚ) :
    limitNotReachedMessage a b c ≠ "" := by
  intro h
  have hlen := limitNotReachedMessage_length a b c
  rw [h] at hlen
  exact absurd hlen (by decide)

theorem mockChars_length : mockChars.length = 62 := by decide

theorem foldl_charAt_length (f : Nat → Int) (l : List Nat) (acc : List Char)
    (h : ∀ i ∈ l, 0 ≤ f i ∧ (f i).toNat < mockChars.length) :
    (l.foldl (fun hash i => hash ++ charAt mockChars (f i)) acc).length
      = acc.length + l.length := by
  induction l generalizing acc with
  | nil => simp
  | cons x xs ih =>
    have hx := h x (List.mem_cons_self x xs)
    rw [List.foldl_cons, ih (acc ++ charAt mockChars (f x))
      (fun i hi => h i (List.mem_cons_of_mem x hi))]
    have hone : (charAt mockChars (f x)).length = 1 := by
      simp [charAt, hx.1, hx.2]
    simp [List.length_append, hone]
    omega

/-- Under in-range `Math.random()` draws, the generated mock hash is 88
characters long. -/
theorem generateMockTxHash_length (txR : Nat → ℚ)
    (h : ∀ i, 0 ≤ txR i ∧ txR i < 1) :
    (generateMockTxHash txR).length = 88 := by
  show ((List.range 88).foldl
    (fun hash i => hash ++ charAt mockChars ⌊txR i * (mockChars.length : ℚ)⌋) []).length = 88
  rw [foldl_charAt_length]
  · simp
  · intro i _
    obtain ⟨h0, h1⟩ := h i
    have hcl : (mockChars.length : ℚ) = 62 := by rw [mockChars_length]; norm_num
    have hge : 0 ≤ ⌊txR i * (mockChars.length : ℚ)⌋ :=
      Int.floor_nonneg.mpr (mul_nonneg h0 (by rw [hcl]; norm_num))
    have hfl : ⌊txR i * (mockChars.length : ℚ)⌋ < 62 := by
      apply Int.floor_lt.mpr
      rw [hcl]
      push_cast
      nlinarith [h1]
    refine ⟨hge, ?_⟩
    have h62 : mockChars.length = 62 := mockChars_length
    omega

theorem generateMockTxHash_ne_empty (txR : Nat → ℚ)
    (h : ∀ i, 0 ≤ txR i ∧ txR i < 1) : generateMockTxHash txR ≠ "" := by
  intro hempty
  have hlen := generateMockTxHash_length txR h
  rw [hempty] at hlen
  exact absurd hlen (by decide)

/-- C8: every terminal persisted update is consistent: a run that fails
persists a non-empty failure reason string, and a run that confirms
persists the selected venue, a positive realized price, and a non-empty
settlement identifier (under `Math.random()` draws in `[0, 1)`). -/
theorem C8_terminal_outcome_fields (env : Env) (order : Order)
    (hu : 0 ≤ env.swapU) (htx : ∀ i, 0 ≤ env.txR i ∧ env.txR i < 1) :
    ((processGate env order).ok = false →
      (processLimitOrder env order).updates =
        [{ status := OrderStatus.failed,
           errorReason := some (limitNotReachedMessage maxRetries
             (routeOrderAt env 0).effectivePrice order.limitPrice) }] ∧
      limitNotReachedMessage maxRetries (routeOrderAt env 0).effectivePrice
          order.limitPrice ≠ "") ∧
    ((processGate env order).ok = true →
      (processLimitOrder env order).updates =
        [{ status := OrderStatus.confirmed,
           dex := some (routeOrderAt env 0).selectedDex,
           executedPrice := some (executeSwap env).executedPrice,
           txHash := some (executeSwap env).txHash }] ∧
      0 < (executeSwap env).executedPrice ∧
      (executeSwap env).txHash ≠ "") := by
  constructor
  · intro h
    exact ⟨by rw [processLimitOrder_gate_fail env order h],
      limitNotReachedMessage_ne_empty _ _ _⟩
  · intro h
    refine ⟨by rw [processLimitOrder_gate_ok env order h], ?_, ?_⟩
    · show 0 < basePrice * (99 / 100 + env.swapU * (2 / 100))
      unfold basePrice
      nlinarith [hu]
    · show generateMockTxHash env.txR ≠ ""
      exact generateMockTxHash_ne_empty env.txR htx

/-- A concrete order whose limit price (200) is above every mock quote,
so the gate succeeds immediately. -/
def highLimitOrder : Order :=
  { id := "order-2", tokenIn := "SOL", tokenOut := "USDC", amountIn := 3 / 2,
    limitPrice := 200 }

theorem processGate_env0_highLimit : (processGate env0 highLimitOrder).ok = true := by
  unfold processGate
  rw [checkLimitWithRetry_first_le env0 _ _
    (by rw [routeOrderAt_env0]; norm_num [highLimitOrder])]

/-- C8 witness: the concrete confirmed run under `env0`. -/
theorem C8_witness :
    (processLimitOrder env0 highLimitOrder).updates =
      [{ status := OrderStatus.confirmed,
         dex := some (routeOrderAt env0 0).selectedDex,
         executedPrice := some (executeSwap env0).executedPrice,
         txHash := some (executeSwap env0).txHash }] ∧
    0 < (executeSwap env0).executedPrice ∧
    (executeSwap env0).txHash ≠ "" :=
  (C8_terminal_outcome_fields env0 highLimitOrder (by norm_num [env0])
    (fun i => ⟨by norm_num [env0], by norm_num [env0]⟩)).2 processGate_env0_highLimit

end OrderExec
